import Mathlib

/-!
Verification of the raptor-ts tree-building and retrieval pipeline.

This file gives a shallow embedding of the core data model and algorithms of
the repository (`src/utils.ts`, `src/clustering.ts`, `src/gmm.ts`,
`src/tree_builder.ts`, `src/tree_retriever.ts`, `src/tree_structures.ts`)
and proves or refutes the specification claims about them.

Modelling conventions:
* JavaScript numbers used for token counts and indices are `Nat`;
  floating-point vector components, distances and BIC scores are `ℚ`.
* `Math.sqrt` is an explicit function parameter `sqrt : ℚ → ℚ` where a
  definition needs it (it is irrational-valued in general; the theorems about
  zero-norm vectors only use the exact float fact `Math.sqrt(0) = 0`).
* A JavaScript `Map<number, T>` is an insertion-ordered association list
  `List (Nat × T)` with unique keys; `Map.set` replaces in place or appends.
* A JavaScript `Set<number>` is an insertion-ordered duplicate-free
  `List Nat`; `new Set(xs)` keeps the first occurrence of each element.
* Thrown `Error`s become `Except` values whose payload carries exactly the
  data interpolated into the error message.
* External capabilities (embedding models, summarization models, tokenizers,
  and the pluggable clustering strategy) are function parameters, mirroring
  their injection through the TypeScript config objects.
-/

namespace Raptor

/-! ### JavaScript string and collection primitives -/

/-- `String.prototype.split` on a set of single-character delimiters
(the TS code builds a regex alternation of single characters):
splits at every matching character, keeping empty pieces. -/
def jsSplitGo (p : Char → Bool) : List Char → List Char → List (List Char)
  | [], acc => [acc.reverse]
  | c :: cs, acc => if p c then acc.reverse :: jsSplitGo p cs [] else jsSplitGo p cs (c :: acc)

/-- JS `text.split(regex)` for a single-character alternation regex. -/
def jsSplit (p : Char → Bool) (s : String) : List String :=
  (jsSplitGo p s.data []).map String.mk

/-- JS `String.prototype.trim`. -/
def jsTrim (s : String) : String :=
  String.mk ((s.data.dropWhile Char.isWhitespace).reverse.dropWhile Char.isWhitespace).reverse

/-- JS `Array.prototype.join(sep)`. -/
def jsJoin (sep : String) : List String → String
  | [] => ""
  | [x] => x
  | x :: xs => x ++ sep ++ jsJoin sep xs

/-- JS `arr.slice(-k)` for `k > 0`: the last `k` elements. -/
def jsSliceLast (k : Nat) (l : List α) : List α :=
  l.drop (l.length - k)

/-- JS `new Set(xs)` read back in iteration order: first occurrence of each
element is kept, later duplicates are dropped. -/
def jsSetOfList (l : List Nat) : List Nat :=
  l.foldl (fun acc x => if acc.contains x then acc else acc ++ [x]) []

/-- JS `Map.prototype.set`: replace the value in place if the key exists,
otherwise append the entry. -/
def mapSet (m : List (Nat × α)) (k : Nat) (v : α) : List (Nat × α) :=
  if (m.map Prod.fst).contains k then
    m.map (fun p => if p.1 = k then (k, v) else p)
  else m ++ [(k, v)]

/-! ### Data model (`src/tree_structures.ts`) -/

/-- `Embeddings`: object mapping embedding-model name to vector
(insertion-ordered association list, unique keys). -/
abbrev Embeddings := List (String × List ℚ)

/-- Association lookup in an `Embeddings` object (`node.embeddings[model]`);
`none` models JS `undefined`. -/
def lookupEmb (e : Embeddings) (model : String) : Option (List ℚ) :=
  match e with
  | [] => none
  | (m, v) :: rest => if m = model then some v else lookupEmb rest model

/-- `Node` from `src/tree_structures.ts` (the optional `documentRef` /
`chunkMetadata` fields are out of the spec's scope and omitted).
`children` is a JS `Set<number>` modelled as a duplicate-free list in
insertion order. -/
structure Node where
  text : String
  index : Nat
  children : List Nat
  embeddings : Embeddings
deriving DecidableEq, Repr

/-- A JS `Map<number, Node>`. -/
abbrev NodeMap := List (Nat × Node)

/-- `Tree` from `src/tree_structures.ts`. `rootNodes` is
`Map<number, Node> | Node[]` in the source, modelled as a sum. -/
structure TreeL where
  allNodes : NodeMap
  rootNodes : Sum NodeMap (List Node)
  leafNodes : NodeMap
  numLayers : Nat
  layerToNodes : List (Nat × List Node)
deriving DecidableEq, Repr

/-! ### `src/utils.ts` -/

/-- `getNodeList`: keys sorted ascending (`sort((a, b) => a - b)`), then each
key resolved through `Map.get` (the `!` assertion never fails because the keys
come from the map itself; `filterMap` makes the model total). -/
def getNodeList (m : NodeMap) : List Node :=
  ((m.map Prod.fst).insertionSort (· ≤ ·)).filterMap (fun i => List.lookup i m)

/-- `getEmbeddings` from `src/utils.ts` lines 108-122: a node whose
`embeddings[embeddingModel]` is missing is NOT an error — the code logs
`console.warn` and skips the node (`// For now, we'll skip it by not adding
it to the array`). -/
def getEmbeddings : List Node → String → List (List ℚ)
  | [], _ => []
  | n :: ns, model =>
    match lookupEmb n.embeddings model with
    | some e => e :: getEmbeddings ns model
    | none => getEmbeddings ns model

/-- `getText`: `nodeList.map(node => node.text.split('\n').join(' ')).join('\n\n')`. -/
def getText (nodes : List Node) : String :=
  jsJoin "\n\n" (nodes.map (fun n => jsJoin " " (jsSplit (fun c => c = '\n') n.text)))

/-- Sum of squares of a vector's components (`v.reduce((s, x) => s + x * x, 0)`).
The JS norm is `Math.sqrt` of this; the norm is zero iff this is zero. -/
def sumSq (a : List ℚ) : ℚ :=
  a.foldl (fun s v => s + v * v) 0

/-- `a.reduce((sum, val, i) => sum + val * b[i], 0)` for equal-length vectors. -/
def dotQ (a b : List ℚ) : ℚ :=
  (a.zip b).foldl (fun s p => s + p.1 * p.2) 0

/-- `cosineDistance` from `src/utils.ts` lines 78-83. There is no zero-norm
guard in this copy: when `normA * normB` is `0`, the JS division `0 / 0`
produces `NaN` and `1 - NaN` is `NaN`; the `none` result models that `NaN`.
`sqrt` is the floating-point `Math.sqrt`. -/
def cosineDistanceUtils (sqrt : ℚ → ℚ) (a b : List ℚ) : Option ℚ :=
  let normA := sqrt (sumSq a)
  let normB := sqrt (sumSq b)
  if normA * normB = 0 then none
  else some (1 - dotQ a b / (normA * normB))

/-- `cosineDistance` from `src/clustering.ts` lines 59-69: this copy DOES
guard zero norms — `if (normA === 0 || normB === 0) return 1;`. -/
def cosineDistanceClustering (sqrt : ℚ → ℚ) (a b : List ℚ) : ℚ :=
  let normA := sqrt (sumSq a)
  let normB := sqrt (sumSq b)
  if normA = 0 ∨ normB = 0 then 1
  else 1 - dotQ a b / (normA * normB)

/-- `indicesOfNearestNeighborsFromDistances`: pair each distance with its
index, sort ascending by distance (JS `Array.prototype.sort` is stable, so
ties keep original index order; `insertionSort` with `≤` on the distance
component is that stable sort), return the indices. -/
def indicesOfNearestNeighborsFromDistances (distances : List ℚ) : List Nat :=
  ((distances.enum.map (fun p => (p.2, p.1))).insertionSort
    (fun a b => a.1 ≤ b.1)).map Prod.snd

/-! ### `splitText` (`src/utils.ts` lines 16-76) -/

/-- Sentence-ending delimiters `['.', '!', '?', '\n']`. -/
def sentenceDelim (c : Char) : Bool :=
  c = '.' || c = '!' || c = '?' || c = '\n'

/-- Sub-sentence delimiters `/[,;:]/` used for over-long sentences. -/
def subSentenceDelim (c : Char) : Bool :=
  c = ',' || c = ';' || c = ':'

/-- `currentChunk.reduce((sum, s) => sum + tokenizer.encode(' ' + s).length, 0)`. -/
def sumTokensSpaced (tok : String → Nat) (l : List String) : Nat :=
  (l.map (fun s => tok (" " ++ s))).sum

/-- State of the accumulation loop in `splitText`. -/
structure SplitState where
  chunks : List String
  currentChunk : List String
  currentLength : Nat
deriving Repr

/-- Inner loop of `splitText` for one over-long sentence: split it on
`[,;:]`, accumulate sub-sentences into sub-chunks, flushing into the global
chunk list. Returns the updated global chunk list. -/
def splitLongSentence (tok : String → Nat) (maxTokens overlap : Nat)
    (chunks0 : List String) (sentence : String) : List String :=
  let subSentences := (jsSplit subSentenceDelim sentence).filter (fun s => jsTrim s ≠ "")
  let res := subSentences.foldl
    (fun (st : List String × List String × Nat) subSentence =>
      let subTokenCount := tok (" " ++ subSentence)
      let st :=
        if st.2.2 + subTokenCount > maxTokens then
          if st.2.1.length > 0 then
            let newSub := if overlap > 0 then jsSliceLast overlap st.2.1 else []
            (st.1 ++ [jsJoin " " st.2.1], newSub, sumTokensSpaced tok newSub)
          else st
        else st
      (st.1, st.2.1 ++ [subSentence], st.2.2 + subTokenCount))
    (chunks0, ([] : List String), 0)
  if res.2.1.length > 0 then res.1 ++ [jsJoin " " res.2.1] else res.1

/-- One iteration of the `sentences.forEach` loop in `splitText`. -/
def splitTextStep (tok : String → Nat) (maxTokens overlap : Nat)
    (st : SplitState) (sentence : String) : SplitState :=
  let tokenCount := tok (" " ++ sentence)
  if tokenCount > maxTokens then
    { st with chunks := splitLongSentence tok maxTokens overlap st.chunks sentence }
  else if st.currentLength + tokenCount > maxTokens then
    let newCur := if overlap > 0 then jsSliceLast overlap st.currentChunk else []
    { chunks := st.chunks ++ [jsJoin " " st.currentChunk],
      currentChunk := newCur ++ [sentence],
      currentLength := sumTokensSpaced tok newCur + tokenCount }
  else
    { st with currentChunk := st.currentChunk ++ [sentence],
              currentLength := st.currentLength + tokenCount }

/-- `splitText` from `src/utils.ts`: split into sentences on `[.!?\n]`, drop
whitespace-only pieces, then greedily accumulate sentences into chunks of at
most `maxTokens` tokens (measured on `' ' + sentence`), joining each chunk
with single spaces; `tok` is the injected tokenizer's
`s => tokenizer.encode(s).length`. -/
def splitText (text : String) (tok : String → Nat) (maxTokens overlap : Nat) :
    List String :=
  let sentences := (jsSplit sentenceDelim text).filter (fun s => jsTrim s ≠ "")
  let st := sentences.foldl (splitTextStep tok maxTokens overlap) ⟨[], [], 0⟩
  if st.currentChunk.length > 0 then st.chunks ++ [jsJoin " " st.currentChunk]
  else st.chunks

/-! ### Serialization (`src/tree_structures.ts`) -/

/-- `SerializedNode` (optional `documentRef` / `chunkMetadata` omitted,
as in the persisted schema of the spec). -/
structure SerializedNode where
  text : String
  index : Nat
  children : List Nat
  embeddings : Embeddings
deriving DecidableEq, Repr

/-- `SerializedTree`. -/
structure SerializedTree where
  allNodes : List (Nat × SerializedNode)
  rootNodes : List (Nat × SerializedNode)
  leafNodes : List (Nat × SerializedNode)
  numLayers : Nat
  layerToNodes : List (Nat × List SerializedNode)
deriving DecidableEq, Repr

/-- `Node.prototype.toJSON`: `children: Array.from(this.children)` reads the
set back in insertion order; `embeddings` is passed through unchanged. -/
def Node.toJSON (n : Node) : SerializedNode :=
  { text := n.text, index := n.index, children := n.children,
    embeddings := n.embeddings }

/-- `Node.fromJSON`: `new Set(data.children)` keeps first occurrences;
`embeddings` is passed through unchanged. -/
def Node.fromJSON (d : SerializedNode) : Node :=
  { text := d.text, index := d.index, children := jsSetOfList d.children,
    embeddings := d.embeddings }

/-- `serializeNodeMap`: `Array.from(map.entries()).map(([k, n]) => [k, n.toJSON()])`. -/
def serializeNodeMap (m : NodeMap) : List (Nat × SerializedNode) :=
  m.map (fun p => (p.1, p.2.toJSON))

/-- `deserializeNodeMap`: rebuild the map entry by entry with `Map.set`. -/
def deserializeNodeMap (entries : List (Nat × SerializedNode)) : NodeMap :=
  entries.foldl (fun m p => mapSet m p.1 (Node.fromJSON p.2)) []

/-- `Tree.prototype.toJSON` (lines 135-163): `rootNodes` may be a `Map` or an
array; an array is serialized as `[node.index, node.toJSON()]` pairs. -/
def TreeL.toJSON (t : TreeL) : SerializedTree :=
  { allNodes := serializeNodeMap t.allNodes,
    rootNodes :=
      match t.rootNodes with
      | .inl m => serializeNodeMap m
      | .inr arr => arr.map (fun n => (n.index, n.toJSON)),
    leafNodes := serializeNodeMap t.leafNodes,
    numLayers := t.numLayers,
    layerToNodes := t.layerToNodes.map (fun p => (p.1, p.2.map Node.toJSON)) }

/-- `Tree.fromJSON` (lines 166-190): all three node maps are rebuilt with
`Map.set` in entry order; `rootNodes` always comes back as a `Map`. -/
def TreeL.fromJSON (d : SerializedTree) : TreeL :=
  { allNodes := deserializeNodeMap d.allNodes,
    rootNodes := .inl (deserializeNodeMap d.rootNodes),
    leafNodes := deserializeNodeMap d.leafNodes,
    numLayers := d.numLayers,
    layerToNodes :=
      d.layerToNodes.foldl (fun m p => mapSet m p.1 (p.2.map Node.fromJSON)) [] }

/-! ### `src/clustering.ts` -/

/-- The embedding-extraction prologue of `RAPTORClustering.performClustering`
(lines 126-132): unlike the retrieval path's `getEmbeddings`, a missing
embedding here THROWS
`Error(`Embedding for model ${embeddingModelName} not found in node ${node.index}`)`;
the error payload `(model, node.index)` carries exactly the data interpolated
into that message. -/
def clusteringNodeEmbeddings : List Node → String → Except (String × Nat) (List (List ℚ))
  | [], _ => .ok []
  | n :: ns, model =>
    match lookupEmb n.embeddings model with
    | none => .error (model, n.index)
    | some e =>
      match clusteringNodeEmbeddings ns model with
      | .error err => .error err
      | .ok es => .ok (e :: es)

/-- `getOptimalClusters` (lines 94-114). `bic k` abstracts
`new GaussianMixture(k, {seed: randomState}).fit(processedEmbeddings);
gm.bic(processedEmbeddings)` — a deterministic floating-point score per
candidate component count, external to the exact model. `n` is
`embeddings.length`. The candidate list is
`Array.from({length: maxClusters - 1}, (_, i) => i + 1)` AFTER
`maxClusters = Math.min(maxClusters, embeddings.length)`, i.e.
`1 .. min(maxClusters, n) - 1`. `Math.min(...[])` is `Infinity`,
`indexOf` then gives `-1` and `nClusters[-1]` is `undefined`, modelled by
`none`. -/
def getOptimalClusters (bic : Nat → ℚ) (maxClusters n : Nat) : Option Nat :=
  let mc := min maxClusters n
  let nClusters := (List.range (mc - 1)).map (· + 1)
  let bics := nClusters.map bic
  match bics.min? with
  | none => none
  | some m => nClusters.get? (bics.indexOf m)

/-- Modelled from the spec: "selecting the count with lowest BIC (first
minimum wins on ties)" — the first candidate in the list attaining the
global minimum of `bic`. -/
def specFirstArgmin (bic : Nat → ℚ) (cands : List Nat) : Option Nat :=
  cands.find? (fun c => cands.all (fun d => decide (bic c ≤ bic d)))

/-- Modelled from the spec: the claim's chooser — candidates
`1 .. min(50, nodeCount - 1)`, first lowest-BIC candidate wins. -/
def claimOptimalClusters (bic : Nat → ℚ) (n : Nat) : Option Nat :=
  specFirstArgmin bic ((List.range (min 50 (n - 1))).map (· + 1))

/-! ### `src/gmm.ts` -/

/-- Fitted-parameter state of `GaussianMixture`
(`weights`, `means`, `covariances`, `converged`). -/
structure GMState where
  weights : List ℚ
  means : List (List ℚ)
  covariances : List (List (List ℚ))
  converged : Bool
deriving DecidableEq, Repr

/-- `GaussianMixture.fit` (lines 162-186). The guard
`if (data.length < this.nComponents) throw new Error(...)` runs BEFORE
`initializeParameters` and the EM loop; `emBody` abstracts that entire
post-guard body (random initialization plus floating-point EM iterations).
The error payload `(data.length, nComponents)` carries exactly the data
interpolated into
`Number of samples (${data.length}) must be >= number of components (${this.nComponents})`.
On the error path the pre-call state `st` is never touched (the result does
not depend on `emBody` at all). -/
def GaussianMixture.fit (nComponents : Nat)
    (emBody : GMState → List (List ℚ) → GMState)
    (st : GMState) (data : List (List ℚ)) : Except (Nat × Nat) GMState :=
  if data.length < nComponents then .error (data.length, nComponents)
  else .ok (emBody st data)

/-! ### Tree builder (`src/tree_builder.ts`, `ClusterTreeBuilder.constructTree`) -/

/-- The configuration of `ClusterTreeBuilder` (`TreeBuilderConfig` plus
`ClusterTreeConfig`), with the injected external capabilities as functions:
`tokenizer` is `s => tokenizer.encode(s).length`, `summarizer` is the
summarization model, `embeddingModels` the map of embedding models, and
`clusterer` the pluggable `ClusteringAlgorithm.performClustering` strategy. -/
structure BuildConfig where
  tokenizer : String → Nat
  maxTokens : Nat
  numLayers : Nat
  summarizationLength : Nat
  embeddingModels : List (String × (String → List ℚ))
  reductionDimension : Nat
  clusterer : List Node → List (List Node)
  summarizer : String → Nat → String

/-- `TreeBuilder.createNode`: embeddings computed for every configured model. -/
def createNode (cfg : BuildConfig) (index : Nat) (text : String)
    (children : List Nat) : Node :=
  { text := text, index := index, children := children,
    embeddings := cfg.embeddingModels.map (fun p => (p.1, p.2 text)) }

/-- Result of `ClusterTreeBuilder.constructTree`; `numLayers` is the
builder's `this.numLayers` field AFTER the loop (the early stop reassigns
it to the layer index reached). -/
structure ConstructResult where
  currentLevelNodes : NodeMap
  allTreeNodes : NodeMap
  layerToNodes : List (Nat × List Node)
  numLayers : Nat
deriving Repr

/-- Summarize one cluster into a new parent node
(the body of `for (const cluster of clusters)` in `constructTree`). -/
def summarizeCluster (cfg : BuildConfig) (st : NodeMap × Nat)
    (cluster : List Node) : NodeMap × Nat :=
  let nodeTexts := getText cluster
  let summarizedText := cfg.summarizer nodeTexts cfg.summarizationLength
  let childrenIndices := jsSetOfList (cluster.map (fun n => n.index))
  let newParentNode := createNode cfg st.2 summarizedText childrenIndices
  (mapSet st.1 st.2 newParentNode, st.2 + 1)

/-- The layer loop of `ClusterTreeBuilder.constructTree` (lines 247-295):
`fuel` counts the remaining iterations of `for (layer = 0; layer < this.numLayers; ...)`,
`layer` the current layer index. When fuel runs out the builder's
`numLayers` field is left at its configured value; when the early stop
`nodeList.length <= reductionDimension + 1` fires, `this.numLayers = layer`
and the loop breaks. -/
def constructTreeGo (cfg : BuildConfig) :
    Nat → Nat → NodeMap → NodeMap → List (Nat × List Node) → Nat → ConstructResult
  | 0, _, cur, all, ltn, _ => ⟨cur, all, ltn, cfg.numLayers⟩
  | fuel + 1, layer, cur, all, ltn, nextIdx =>
    let nodeListCurrentLayer := getNodeList cur
    if nodeListCurrentLayer.length ≤ cfg.reductionDimension + 1 then
      ⟨cur, all, ltn, layer⟩
    else
      let clusters := cfg.clusterer nodeListCurrentLayer
      let built := clusters.foldl (summarizeCluster cfg) ([], nextIdx)
      let newLevelNodes := built.1
      let ltn2 := mapSet ltn (layer + 1) (newLevelNodes.map Prod.snd)
      let all2 := newLevelNodes.foldl (fun m p => mapSet m p.1 p.2) all
      constructTreeGo cfg fuel (layer + 1) newLevelNodes all2 ltn2 built.2

/-- `ClusterTreeBuilder.constructTree`: starts at layer `0` with
`nextNodeIndex = allTreeNodes.size`. -/
def constructTree (cfg : BuildConfig) (cur all : NodeMap)
    (ltn : List (Nat × List Node)) : ConstructResult :=
  constructTreeGo cfg cfg.numLayers 0 cur all ltn all.length

/-- Leaf creation in `TreeBuilder.buildFromText`: chunk `i` becomes leaf
node `i` (falsy — empty — chunks are skipped by `if (chunk)`). -/
def buildLeafNodes (cfg : BuildConfig) (text : String) : NodeMap :=
  (splitText text cfg.tokenizer cfg.maxTokens 0).enum.foldl
    (fun m p => if p.2 = "" then m else mapSet m p.1 (createNode cfg p.1 p.2 []))
    []

/-- `TreeBuilder.buildFromText` (lines 89-113): split, build leaves, record
layer 0, run `constructTree` (note `allNodes` and the current-level map start
as the same copy of the leaf map), and assemble the `Tree` with the builder's
post-construction `numLayers` field. -/
def buildFromText (cfg : BuildConfig) (text : String) : TreeL :=
  let leafNodes := buildLeafNodes cfg text
  let ltn0 := mapSet [] 0 (leafNodes.map Prod.snd)
  let res := constructTree cfg leafNodes leafNodes ltn0
  { allNodes := res.allTreeNodes,
    rootNodes := .inl res.currentLevelNodes,
    leafNodes := leafNodes,
    numLayers := res.numLayers,
    layerToNodes := res.layerToNodes }

/-! ### Tree retriever (`src/tree_retriever.ts`) -/

/-- `selectionMode: 'top_k' | 'threshold'`. -/
inductive SelectionMode where
  | top_k
  | thresholdMode
deriving DecidableEq, Repr

/-- The greedy token-budgeted selection loop of
`retrieveInformationCollapseTree` (lines 76-87): walk the candidate index
list, skip `undefined` nodes, and `break` the first time adding the next
node's token count would exceed `maxTokens` (already-added nodes are kept). -/
def collapseSelectGo (nodeList : List Node) (tok : String → Nat)
    (maxTokens : Nat) : List Nat → Nat → List Node
  | [], _ => []
  | idx :: rest, totalTokens =>
    match nodeList.get? idx with
    | none => collapseSelectGo nodeList tok maxTokens rest totalTokens
    | some node =>
      let nodeTokens := tok node.text
      if totalTokens + nodeTokens > maxTokens then []
      else node :: collapseSelectGo nodeList tok maxTokens rest (totalTokens + nodeTokens)

/-- `TreeRetriever.retrieveInformationCollapseTree` (lines 64-91).
The query embedding comes from the external embedding model and the
distances from floating-point `cosineDistance`; `distFn e` abstracts
`cosineDistance(queryEmbedding, e)`, so every query and embedding outcome is
covered by quantifying over `distFn`. Candidates are all tree nodes in
ascending index order (`getNodeList`), their distances sorted ascending, and
only the first `topK` sorted candidates enter the greedy token loop. -/
def retrieveInformationCollapseTree (tree : TreeL) (contextModel : String)
    (tok : String → Nat) (distFn : List ℚ → ℚ) (topK maxTokens : Nat) :
    List Node × String :=
  let nodeList := getNodeList tree.allNodes
  let embeddings := getEmbeddings nodeList contextModel
  let distances := embeddings.map distFn
  let indices := indicesOfNearestNeighborsFromDistances distances
  let selectedNodes := collapseSelectGo nodeList tok maxTokens (indices.take topK) 0
  (selectedNodes, getText selectedNodes)

/-- The per-layer index selection of `TreeRetriever.retrieveInformation`
(lines 162-169): in `'threshold'` mode the sorted indices are filtered by
`distances[index] > this.threshold` — the RAW distance is compared against
the threshold, not the similarity `1 - distance`. -/
def selectBestIndices (mode : SelectionMode) (threshold : ℚ) (topK : Nat)
    (distances : List ℚ) : List Nat :=
  let indices := indicesOfNearestNeighborsFromDistances distances
  match mode with
  | .thresholdMode => indices.filter (fun i => decide (distances.getD i 0 > threshold))
  | .top_k => indices.take topK

/-- The layer-descent loop of `TreeRetriever.retrieveInformation`
(lines 150-190); `distancesOf nodes` abstracts
`distancesFromEmbeddings(queryEmbedding, getEmbeddings(nodes, model))` —
the floating-point distances of the current candidate set to the query. -/
def retrieveInformationLoop (tree : TreeL) (mode : SelectionMode)
    (threshold : ℚ) (topK : Nat) (distancesOf : List Node → List ℚ) :
    Nat → List Node → List Node
  | 0, _ => []
  | numLayers + 1, nodeList =>
    let distances := distancesOf nodeList
    let bestIndices := selectBestIndices mode threshold topK distances
    let nodesToAdd := bestIndices.filterMap nodeList.get?
    let rest :=
      if numLayers = 0 then []
      else
        let childIndices := jsSetOfList (bestIndices.foldl
          (fun acc idx =>
            match nodeList.get? idx with
            | some n => acc ++ n.children
            | none => acc) [])
        retrieveInformationLoop tree mode threshold topK distancesOf numLayers
          (childIndices.filterMap (fun i => List.lookup i tree.allNodes))
    nodesToAdd ++ rest

/-! ### Theorems -/

/-- Token count of a selected node list under tokenizer `tok`
(`tokenizer.encode(node.text).length` summed). -/
def tokenSum (tok : String → Nat) (nodes : List Node) : Nat :=
  (nodes.map (fun n => tok n.text)).sum

lemma collapseSelectGo_tokenSum_le (nodeList : List Node) (tok : String → Nat)
    (maxTokens : Nat) :
    ∀ (cand : List Nat) (total : Nat), total ≤ maxTokens →
      total + tokenSum tok (collapseSelectGo nodeList tok maxTokens cand total) ≤ maxTokens := by
  intro cand
  induction cand with
  | nil => intro total h; simpa [collapseSelectGo, tokenSum] using h
  | cons idx rest ih =>
    intro total h
    simp only [collapseSelectGo]
    cases hg : nodeList.get? idx with
    | none => exact ih total h
    | some node =>
      simp only
      by_cases hov : total + tok node.text > maxTokens
      · simpa [hov, tokenSum] using h
      · have hle : total + tok node.text ≤ maxTokens := by omega
        have hih := ih (total + tok node.text) hle
        rw [if_neg hov]
        simp only [tokenSum, List.map_cons, List.sum_cons] at hih ⊢
        omega

lemma collapseSelectGo_length_le (nodeList : List Node) (tok : String → Nat)
    (maxTokens : Nat) :
    ∀ (cand : List Nat) (total : Nat),
      (collapseSelectGo nodeList tok maxTokens cand total).length ≤ cand.length := by
  intro cand
  induction cand with
  | nil => intro total; simp [collapseSelectGo]
  | cons idx rest ih =>
    intro total
    simp only [collapseSelectGo]
    cases hg : nodeList.get? idx with
    | none => exact Nat.le_trans (ih total) (by simp)
    | some node =>
      simp only
      by_cases hov : total + tok node.text > maxTokens
      · simp [hov]
      · simp only [hov, if_false, List.length_cons]
        exact Nat.succ_le_succ (ih _)

/-- Claim C2: collapsed-tree retrieval walks the distance-sorted candidate
list greedily; the first time adding the next node's token count would push
the running total past `maxTokens` it stops (keeping the nodes already
added), so the token sum of the returned node list never exceeds
`maxTokens` — for every tree, tokenizer, query/distance outcome, `topK`
and token budget. -/
theorem collapse_tree_token_budget (tree : TreeL) (contextModel : String)
    (tok : String → Nat) (distFn : List ℚ → ℚ) (topK maxTokens : Nat) :
    tokenSum tok
      (retrieveInformationCollapseTree tree contextModel tok distFn topK maxTokens).1
      ≤ maxTokens := by
  have h := collapseSelectGo_tokenSum_le (getNodeList tree.allNodes) tok maxTokens
    ((indicesOfNearestNeighborsFromDistances
        ((getEmbeddings (getNodeList tree.allNodes) contextModel).map distFn)).take topK)
    0 (Nat.zero_le _)
  simpa [retrieveInformationCollapseTree] using h

/-- Claim C10: collapsed-tree retrieval returns at most `topK` nodes — only
the first `topK` sorted candidates (`indices.slice(0, topK)`) are ever
considered, regardless of how much token budget remains. -/
theorem collapse_tree_at_most_topK (tree : TreeL) (contextModel : String)
    (tok : String → Nat) (distFn : List ℚ → ℚ) (topK maxTokens : Nat) :
    (retrieveInformationCollapseTree tree contextModel tok distFn topK maxTokens).1.length
      ≤ topK := by
  have h := collapseSelectGo_length_le (getNodeList tree.allNodes) tok maxTokens
    ((indicesOfNearestNeighborsFromDistances
        ((getEmbeddings (getNodeList tree.allNodes) contextModel).map distFn)).take topK)
    0
  calc (retrieveInformationCollapseTree tree contextModel tok distFn topK maxTokens).1.length
      ≤ ((indicesOfNearestNeighborsFromDistances
            ((getEmbeddings (getNodeList tree.allNodes) contextModel).map distFn)).take
            topK).length := by simpa [retrieveInformationCollapseTree] using h
    _ ≤ topK := List.length_take_le _ _

/-- Claim C6: fitting with fewer samples than components throws before the
EM body runs — for EVERY possible post-guard body `emBody` and pre-call
state `st`, the result is the error carrying the sample and component
counts, and `st` is untouched. -/
theorem gmm_fit_insufficient_data (nComponents : Nat)
    (emBody : GMState → List (List ℚ) → GMState) (st : GMState)
    (data : List (List ℚ)) (h : data.length < nComponents) :
    GaussianMixture.fit nComponents emBody st data = .error (data.length, nComponents) := by
  simp [GaussianMixture.fit, h]

/-- Witness for `gmm_fit_insufficient_data`: one sample, two components. -/
theorem gmm_fit_insufficient_data_witness :
    GaussianMixture.fit 2 (fun s _ => s) ⟨[], [], [], false⟩ [[(1 : ℚ)]]
      = .error (1, 2) :=
  gmm_fit_insufficient_data 2 (fun s _ => s) ⟨[], [], [], false⟩ [[(1 : ℚ)]]
    (by decide)

lemma mem_indicesOfNearestNeighbors (distances : List ℚ) (i : Nat) :
    i ∈ indicesOfNearestNeighborsFromDistances distances ↔ i < distances.length := by
  unfold indicesOfNearestNeighborsFromDistances
  have hp : ((distances.enum.map (fun p => (p.2, p.1))).insertionSort
      (fun a b => a.1 ≤ b.1)).Perm (distances.enum.map (fun p => (p.2, p.1))) :=
    List.perm_insertionSort _ _
  rw [(hp.map Prod.snd).mem_iff, List.map_map]
  have : (Prod.snd ∘ fun p : Nat × ℚ => (p.2, p.1)) = Prod.fst := rfl
  rw [this, List.enum_map_fst, List.mem_range]

/-- Claim C1: in layer-traversal retrieval with `selectionMode = 'threshold'`,
the indices kept at a layer are exactly those whose RAW distance to the query
is strictly greater than the threshold (`distances[index] > this.threshold`) —
the comparison is on the distance itself, not on the similarity
`1 - distance`. -/
theorem threshold_mode_keeps_raw_distance_gt (distances : List ℚ)
    (threshold : ℚ) (topK i : Nat) :
    i ∈ selectBestIndices .thresholdMode threshold topK distances ↔
      ∃ h : i < distances.length, threshold < distances.get ⟨i, h⟩ := by
  simp only [selectBestIndices, List.mem_filter, mem_indicesOfNearestNeighbors,
    decide_eq_true_eq]
  constructor
  · rintro ⟨hi, hgt⟩
    refine ⟨hi, ?_⟩
    rwa [List.getD_eq_getElem distances 0 hi] at hgt
  · rintro ⟨hi, hgt⟩
    exact ⟨hi, by rwa [List.getD_eq_getElem distances 0 hi]⟩

/-- Counterexample to claim C7 as stated: the `utils.ts` copy of
`cosineDistance` applied to the zero vector `[0]` and `[1]` divides `0 / 0`
and yields `NaN` (modelled `none`) — it neither returns the maximal distance
`1.0` nor fails in a controlled way. (Any floating-point `sqrt` has
`sqrt 0 = 0`; the identity function instantiates that here.) -/
theorem cosineDistanceUtils_zero_norm_nan :
    cosineDistanceUtils (fun q => q) [(0 : ℚ)] [(1 : ℚ)] = none := by
  norm_num [cosineDistanceUtils, sumSq]

/-- Claim C7 (amended): on a zero-norm input the `clustering.ts` copy of
`cosineDistance` returns the maximal distance `1.0` thanks to its explicit
guard, while the `utils.ts` copy (which has no guard) produces `NaN`
(modelled `none`) — it propagates silently rather than crashing. Uses only
`Math.sqrt(0) = 0`, exact in floating point. -/
theorem cosine_distance_zero_norm (sqrt : ℚ → ℚ) (a b : List ℚ)
    (hsqrt : sqrt 0 = 0) (h : sumSq a = 0 ∨ sumSq b = 0) :
    cosineDistanceUtils sqrt a b = none ∧
      cosineDistanceClustering sqrt a b = 1 := by
  rcases h with ha | hb
  · constructor
    · simp [cosineDistanceUtils, ha, hsqrt]
    · simp [cosineDistanceClustering, ha, hsqrt]
  · constructor
    · simp [cosineDistanceUtils, hb, hsqrt]
    · simp [cosineDistanceClustering, hb, hsqrt]

/-- Witness for `cosine_distance_zero_norm` at `a = [0]`, `b = [2]`. -/
theorem cosine_distance_zero_norm_witness :
    cosineDistanceUtils (fun q => q) [(0 : ℚ)] [(2 : ℚ)] = none ∧
      cosineDistanceClustering (fun q => q) [(0 : ℚ)] [(2 : ℚ)] = 1 :=
  cosine_distance_zero_norm (fun q => q) [(0 : ℚ)] [(2 : ℚ)] rfl
    (Or.inl (by norm_num [sumSq]))

/-- A node that has an embedding for model `"m"`. -/
def demoNodeWithEmb : Node :=
  { text := "a", index := 0, children := [], embeddings := [("m", [1])] }

/-- A node that lacks an embedding for model `"m"`. -/
def demoNodeMissingEmb : Node :=
  { text := "b", index := 1, children := [], embeddings := [] }

/-- Counterexample to claim C3 as stated: with a candidate set where node 1
lacks the embedding for model `"m"`, the retrieval path's `getEmbeddings`
does NOT fail — it returns the remaining embedding list, silently dropping
the node (the source logs a `console.warn` and continues). -/
theorem getEmbeddings_skips_missing :
    getEmbeddings [demoNodeWithEmb, demoNodeMissingEmb] "m" = [[(1 : ℚ)]] ∧
      (getEmbeddings [demoNodeWithEmb, demoNodeMissingEmb] "m").length <
        ([demoNodeWithEmb, demoNodeMissingEmb] : List Node).length := by
  constructor <;> decide

lemma getEmbeddings_length_le (nodes : List Node) (model : String) :
    (getEmbeddings nodes model).length ≤ nodes.length := by
  induction nodes with
  | nil => simp [getEmbeddings]
  | cons n ns ih =>
    simp only [getEmbeddings]
    cases lookupEmb n.embeddings model with
    | none => exact Nat.le_trans ih (by simp)
    | some e => simpa using Nat.succ_le_succ ih

/-- Claim C3 (amended): when some node in the candidate set lacks the
embedding for the named model, the RETRIEVAL path (`getEmbeddings` in
`src/utils.ts`) silently skips that node — the returned embedding list is
strictly shorter than the node list and no error is raised — whereas the
BUILD-path extraction in `RAPTORClustering.performClustering` is fatal with
an error identifying the model name and the offending node's index. -/
theorem missing_embedding_skip_vs_throw (nodes : List Node) (model : String)
    (h : ∃ n ∈ nodes, lookupEmb n.embeddings model = none) :
    (getEmbeddings nodes model).length < nodes.length ∧
      ∃ n ∈ nodes, lookupEmb n.embeddings model = none ∧
        clusteringNodeEmbeddings nodes model = .error (model, n.index) := by
  induction nodes with
  | nil => simp at h
  | cons n ns ih =>
    cases hn : lookupEmb n.embeddings model with
    | none =>
      refine ⟨?_, n, List.mem_cons_self n ns, hn, ?_⟩
      · have := getEmbeddings_length_le ns model
        simp only [getEmbeddings, hn, List.length_cons]
        omega
      · simp [clusteringNodeEmbeddings, hn]
    | some e =>
      obtain ⟨x, hx, hlx⟩ := h
      rcases List.mem_cons.mp hx with rfl | hxs
      · rw [hn] at hlx; exact absurd hlx (by simp)
      · obtain ⟨hlen, x2, hx2, hlx2, herr⟩ := ih ⟨x, hxs, hlx⟩
        refine ⟨?_, x2, List.mem_cons_of_mem n hx2, hlx2, ?_⟩
        · simp only [getEmbeddings, hn, List.length_cons]
          omega
        · simp [clusteringNodeEmbeddings, hn, herr]

/-- Witness for `missing_embedding_skip_vs_throw` on the two demo nodes. -/
theorem missing_embedding_skip_vs_throw_witness :
    (getEmbeddings [demoNodeWithEmb, demoNodeMissingEmb] "m").length <
        ([demoNodeWithEmb, demoNodeMissingEmb] : List Node).length ∧
      ∃ n ∈ [demoNodeWithEmb, demoNodeMissingEmb],
        lookupEmb n.embeddings "m" = none ∧
          clusteringNodeEmbeddings [demoNodeWithEmb, demoNodeMissingEmb] "m"
            = .error ("m", n.index) :=
  missing_embedding_skip_vs_throw [demoNodeWithEmb, demoNodeMissingEmb] "m"
    (by decide)

lemma find?_eq_of_first {α : Type _} (l : List α) (p : α → Bool) :
    ∀ (i : Nat) (h : i < l.length),
      p (l.get ⟨i, h⟩) = true →
      (∀ j (hj : j < i), p (l.get ⟨j, Nat.lt_trans hj h⟩) = false) →
      l.find? p = some (l.get ⟨i, h⟩) := by
  induction l with
  | nil => intro i h; exact absurd h (by simp)
  | cons a t ih =>
    intro i h hp hbefore
    cases i with
    | zero =>
      simp only [List.get] at hp ⊢
      rw [List.find?_cons_of_pos _ hp]
    | succ i2 =>
      have hpa : p a = false := hbefore 0 (Nat.succ_pos i2)
      rw [List.find?_cons_of_neg _ (by simp [hpa])]
      simp only [List.get] at hp ⊢
      exact ih i2 (Nat.lt_of_succ_lt_succ h) hp
        (fun j hj => hbefore (j + 1) (Nat.succ_lt_succ hj))

lemma before_indexOf_ne {α : Type _} [DecidableEq α] (l : List α) (a : α) :
    ∀ (j : Nat) (_hj : j < l.indexOf a) (h : j < l.length), l.get ⟨j, h⟩ ≠ a := by
  induction l with
  | nil => intro j _hj h; exact absurd h (by simp)
  | cons b t ih =>
    intro j hj h
    by_cases hba : b = a
    · rw [List.indexOf_cons_eq t hba] at hj
      exact absurd hj (Nat.not_lt_zero j)
    · rw [List.indexOf_cons_ne t hba] at hj
      cases j with
      | zero => simpa using hba
      | succ j2 =>
        simp only [List.get]
        exact ih j2 (Nat.lt_of_succ_lt_succ hj) (Nat.lt_of_succ_lt_succ h)

lemma code_argmin_eq_specFirstArgmin (f : Nat → ℚ) (l : List Nat) :
    (match (l.map f).min? with
     | none => none
     | some m => l.get? ((l.map f).indexOf m)) = specFirstArgmin f l := by
  cases hmin : (l.map f).min? with
  | none =>
    rw [List.min?_eq_none_iff] at hmin
    have hl : l = [] := by simpa using hmin
    subst hl
    rfl
  | some m =>
    haveI : Std.Antisymm (fun x1 x2 : ℚ => x1 ≤ x2) :=
      ⟨fun h1 h2 => le_antisymm h1 h2⟩
    have hiff := (List.min?_eq_some_iff (fun a : ℚ => le_refl a)
      (fun a b : ℚ => min_choice a b)
      (fun a b c : ℚ => le_min_iff)).mp hmin
    obtain ⟨hmem, hle⟩ := hiff
    have hi : (l.map f).indexOf m < (l.map f).length :=
      List.indexOf_lt_length.mpr hmem
    have hi2 : (l.map f).indexOf m < l.length := by simpa using hi
    have hgeti : (l.map f).get ⟨(l.map f).indexOf m, hi⟩ = m := List.indexOf_get hi
    have hfi : f (l.get ⟨(l.map f).indexOf m, hi2⟩) = m := by
      have h3 := List.getElem_indexOf (α := ℚ) hi
      rw [List.getElem_map] at h3
      simpa [List.get_eq_getElem] using h3
    have hfind := find?_eq_of_first l
      (fun c => l.all (fun d => decide (f c ≤ f d)))
      ((l.map f).indexOf m) hi2 ?_ ?_
    · show l.get? ((l.map f).indexOf m) = specFirstArgmin f l
      unfold specFirstArgmin
      rw [hfind, List.get?_eq_get hi2]
    · rw [List.all_eq_true]
      intro d hd
      rw [decide_eq_true_eq, hfi]
      exact hle (f d) (List.mem_map_of_mem f hd)
    · intro j hj
      have hj2 : j < l.length := Nat.lt_trans hj hi2
      apply Bool.eq_false_iff.mpr
      intro htrue
      rw [List.all_eq_true] at htrue
      have h1 := htrue (l.get ⟨(l.map f).indexOf m, hi2⟩)
        (List.get_mem l _ _)
      rw [decide_eq_true_eq, hfi] at h1
      have h2 : m ≤ f (l.get ⟨j, hj2⟩) := by
        apply hle
        exact List.mem_map_of_mem f (List.get_mem l _ _)
      have heq : f (l.get ⟨j, hj2⟩) = m := le_antisymm h1 h2
      have hne := before_indexOf_ne (l.map f) m j hj (by simpa using hj2)
      apply hne
      rw [← heq]
      simp [List.get_eq_getElem]

/-- Claim C5 (amended): `getOptimalClusters` with `maxClusters = 50` fits a
mixture for every candidate component count in `1 .. min(50, nodeCount) - 1`
(NOT `1 .. min(50, nodeCount - 1)`: the code clamps `maxClusters` to `n`
BEFORE subtracting 1, so for `n ≥ 51` the largest candidate is 49) and
returns the first (smallest) candidate attaining the lowest BIC. -/
theorem getOptimalClusters_first_argmin (bic : Nat → ℚ) (n : Nat) :
    getOptimalClusters bic 50 n =
      specFirstArgmin bic ((List.range (min 50 n - 1)).map (· + 1)) := by
  unfold getOptimalClusters
  exact code_argmin_eq_specFirstArgmin bic _

/-- A BIC curve whose minimum sits at component count 50. -/
def bicDemo : Nat → ℚ := fun k => if k = 50 then 0 else 1

set_option maxRecDepth 40000 in
/-- Counterexample to claim C5 as stated: with 51 data points the claim's
candidate range is `1 .. min(50, 50) = 1..50`, whose first lowest-BIC
candidate under `bicDemo` is 50 — but the code only sweeps
`1 .. min(50, 51) - 1 = 1..49` and returns 1 (every candidate ties at BIC 1),
never fitting the count 50 the claim requires. -/
theorem getOptimalClusters_candidates_counterexample :
    getOptimalClusters bicDemo 50 51 = some 1 ∧
      claimOptimalClusters bicDemo 51 = some 50 := by
  constructor <;> decide

lemma jsSetOfList_go_nodup :
    ∀ (l acc : List Nat), (acc ++ l).Nodup →
      l.foldl (fun a x => if a.contains x then a else a ++ [x]) acc = acc ++ l := by
  intro l
  induction l with
  | nil => intro acc _; simp
  | cons x t ih =>
    intro acc hnd
    have hx : x ∉ acc := by
      intro hmem
      exact (List.disjoint_of_nodup_append hnd) hmem (List.mem_cons_self x t)
    have hcon : acc.contains x = false := by
      simpa using hx
    simp only [List.foldl_cons, hcon, Bool.false_eq_true, if_false]
    have hnd2 : ((acc ++ [x]) ++ t).Nodup := by
      simpa [List.append_assoc] using hnd
    have := ih (acc ++ [x]) hnd2
    simpa [List.append_assoc] using this

lemma jsSetOfList_nodup (l : List Nat) (h : l.Nodup) : jsSetOfList l = l := by
  have := jsSetOfList_go_nodup l [] (by simpa using h)
  simpa [jsSetOfList] using this

lemma node_fromJSON_toJSON (n : Node) (h : n.children.Nodup) :
    Node.fromJSON (Node.toJSON n) = n := by
  cases n with
  | mk text index children embeddings =>
    simp only [Node.toJSON, Node.fromJSON]
    simp_all [jsSetOfList_nodup]

lemma mapSet_append (m : List (Nat × α)) (k : Nat) (v : α)
    (h : k ∉ m.map Prod.fst) : mapSet m k v = m ++ [(k, v)] := by
  have hcon : (m.map Prod.fst).contains k = false := by simpa using h
  simp only [mapSet, hcon, Bool.false_eq_true, if_false]

lemma deserialize_serialize_go :
    ∀ (m : NodeMap) (acc : NodeMap),
      (((acc ++ m).map Prod.fst)).Nodup →
      (∀ p ∈ m, (p.2).children.Nodup) →
      (serializeNodeMap m).foldl
        (fun a p => mapSet a p.1 (Node.fromJSON p.2)) acc = acc ++ m := by
  intro m
  induction m with
  | nil => intro acc _ _; simp [serializeNodeMap]
  | cons p t ih =>
    intro acc hnd hch
    have hkey : p.1 ∉ acc.map Prod.fst := by
      have hdisj := List.disjoint_of_nodup_append
        (by simpa [List.map_append] using hnd :
          (acc.map Prod.fst ++ (p :: t).map Prod.fst).Nodup)
      intro hmem
      exact hdisj hmem (by simp)
    have hrt : Node.fromJSON (Node.toJSON p.2) = p.2 :=
      node_fromJSON_toJSON p.2 (hch p (List.mem_cons_self p t))
    simp only [serializeNodeMap, List.map_cons, List.foldl_cons]
    rw [hrt, mapSet_append acc p.1 p.2 hkey]
    have hnd2 : (((acc ++ [p]) ++ t).map Prod.fst).Nodup := by
      simpa [List.append_assoc] using hnd
    have hresult := ih (acc ++ [p]) hnd2
      (fun q hq => hch q (List.mem_cons_of_mem p hq))
    rw [show serializeNodeMap t =
        (serializeNodeMap (p :: t)).tail by simp [serializeNodeMap]] at hresult
    simpa [serializeNodeMap, List.append_assoc] using hresult

/-- Claim C9: serializing a `Tree` with `toJSON` and deserializing with
`fromJSON` restores `allNodes` exactly — identical keys, identical per-node
`children` sets, identical embeddings (and texts) with exact equality —
given the JS invariants that the map's keys are unique and each node's
children set is duplicate-free. -/
theorem tree_toJSON_fromJSON_roundtrip (t : TreeL)
    (hk : (t.allNodes.map Prod.fst).Nodup)
    (hc : ∀ p ∈ t.allNodes, (p.2).children.Nodup) :
    (TreeL.fromJSON (TreeL.toJSON t)).allNodes = t.allNodes := by
  simp only [TreeL.toJSON, TreeL.fromJSON, deserializeNodeMap]
  exact deserialize_serialize_go t.allNodes [] (by simpa using hk) hc

/-- Two-node demo tree: one leaf, one root summarizing it. -/
def demoNode0 : Node :=
  { text := "leaf", index := 0, children := [], embeddings := [("m", [1, 0])] }

/-- The root node of the demo tree. -/
def demoNode1 : Node :=
  { text := "root", index := 1, children := [0], embeddings := [("m", [0, 1])] }

/-- A concrete well-formed tree (with the array variant of `rootNodes`). -/
def demoTree : TreeL :=
  { allNodes := [(0, demoNode0), (1, demoNode1)],
    rootNodes := .inr [demoNode1],
    leafNodes := [(0, demoNode0)],
    numLayers := 1,
    layerToNodes := [(0, [demoNode0]), (1, [demoNode1])] }

/-- Witness for `tree_toJSON_fromJSON_roundtrip` on the demo tree. -/
theorem tree_roundtrip_witness :
    (TreeL.fromJSON (TreeL.toJSON demoTree)).allNodes = demoTree.allNodes :=
  tree_toJSON_fromJSON_roundtrip demoTree (by decide) (by decide)

/-- Counterexample to claim C8 as stated: `splitText("A. B. C.", 1000)` (with
the literal `String.length` as a concrete tokenizer under which every
sentence fits the budget) returns ONE chunk, not three: the greedy loop
accumulates all three sentences — which keep the leading space left by the
`split` — into a single chunk joined by single spaces, yielding
`["A  B  C"]`, not `["A", "B", "C"]`. -/
theorem splitText_single_chunk_counterexample :
    splitText "A. B. C." String.length 1000 0 = ["A  B  C"] ∧
      (["A  B  C"] : List String) ≠ ["A", "B", "C"] := by
  constructor <;> decide

/-- Claim C8 (amended): for ANY tokenizer under which the three sentences
fit the 1000-token budget together, `splitText("A. B. C.", 1000)` strips the
delimiter periods but returns the single chunk `["A  B  C"]` (the sentences
`"A"`, `" B"`, `" C"` keep the leading space from the split and are joined
by single spaces into one greedy chunk). -/
theorem splitText_abc (tok : String → Nat)
    (h : tok " A" + tok "  B" + tok "  C" ≤ 1000) :
    splitText "A. B. C." tok 1000 0 = ["A  B  C"] := by
  have hs : (jsSplit sentenceDelim "A. B. C.").filter (fun s => jsTrim s ≠ "")
      = ["A", " B", " C"] := by decide
  have e1 : (" " ++ "A" : String) = " A" := rfl
  have e2 : (" " ++ " B" : String) = "  B" := rfl
  have e3 : (" " ++ " C" : String) = "  C" := rfl
  have h1 : ¬ (tok " A" > 1000) := by omega
  have h2 : ¬ ((0 : Nat) + tok " A" > 1000) := by omega
  have h3 : ¬ (tok "  B" > 1000) := by omega
  have h4 : ¬ (0 + tok " A" + tok "  B" > 1000) := by omega
  have h5 : ¬ (tok "  C" > 1000) := by omega
  have h6 : ¬ (0 + tok " A" + tok "  B" + tok "  C" > 1000) := by omega
  simp only [splitText, hs, List.foldl_cons, List.foldl_nil, splitTextStep,
    e1, e2, e3]
  rw [if_neg h1, if_neg h2]
  simp only
  rw [if_neg h3, if_neg h4]
  simp only
  rw [if_neg h5, if_neg h6]
  simp only
  norm_num [jsJoin]
  decide

/-- Witness for `splitText_abc` with `String.length` as the tokenizer. -/
theorem splitText_abc_witness :
    splitText "A. B. C." String.length 1000 0 = ["A  B  C"] :=
  splitText_abc String.length (by decide)

/-- The trivial clustering strategy: one cluster holding every node
(a legal `ClusteringAlgorithm` instance). -/
def clustererAll : List Node → List (List Node) := fun nodes => [nodes]

/-- Concrete build configuration: the constant-10 tokenizer with
`maxTokens = 10` makes every sentence its own chunk; `reductionDimension`
is 10 as in claim C4. -/
def cfg12 : BuildConfig :=
  { tokenizer := fun _ => 10, maxTokens := 10, numLayers := 5,
    summarizationLength := 100, embeddingModels := [("m", fun _ => [1])],
    reductionDimension := 10, clusterer := clustererAll,
    summarizer := fun _ _ => "S" }

/-- Twelve one-letter sentences → twelve leaf chunks under `cfg12`. -/
def text12 : String := "a. b. c. d. e. f. g. h. i. j. k. l."

/-- Eleven one-letter sentences → eleven leaf chunks under `cfg12`. -/
def text11 : String := "a. b. c. d. e. f. g. h. i. j. k."

set_option maxRecDepth 40000 in
/-- Counterexample to claim C4 as stated: an input splitting into exactly 12
leaf chunks with `reductionDim = 10` does NOT stop layer construction
immediately — the early-stop test is `12 <= 10 + 1`, which is FALSE, so the
builder clusters layer 0 and produces `numLayers = 1` with a root layer
distinct from the leaves. (The spec's arithmetic `12 ≤ 10+1` is wrong.) -/
theorem twelve_leaves_not_early_stop :
    (splitText text12 cfg12.tokenizer cfg12.maxTokens 0).length = 12 ∧
      cfg12.reductionDimension = 10 ∧
      (buildFromText cfg12 text12).numLayers = 1 := by
  refine ⟨by decide, by decide, by decide⟩

/-- Claim C4 (amended): layer construction stops immediately — producing
`numLayers = 0` and `rootNodes` equal to the leaf map — exactly when the
leaf count is at most `reductionDim + 1`; 12 leaves with
`reductionDim = 10` fail that test (12 > 11), while e.g. 11 leaves stop
immediately. -/
theorem early_stop_small_leaf_layer (cfg : BuildConfig) (text : String)
    (h : (getNodeList (buildLeafNodes cfg text)).length ≤ cfg.reductionDimension + 1) :
    (buildFromText cfg text).numLayers = 0 ∧
      (buildFromText cfg text).rootNodes = .inl (buildFromText cfg text).leafNodes := by
  cases hn : cfg.numLayers with
  | zero =>
    simp [buildFromText, constructTree, hn, constructTreeGo]
  | succ k =>
    simp [buildFromText, constructTree, hn, constructTreeGo, h]

set_option maxRecDepth 40000 in
/-- Witness for `early_stop_small_leaf_layer`: eleven leaf chunks with
`reductionDim = 10` (11 ≤ 11) stop immediately. -/
theorem early_stop_witness :
    (buildFromText cfg12 text11).numLayers = 0 ∧
      (buildFromText cfg12 text11).rootNodes
        = .inl (buildFromText cfg12 text11).leafNodes :=
  early_stop_small_leaf_layer cfg12 text11 (by decide)

end Raptor
